import Mathlib

/-!
Verification of the Who-Versus core: entity store, scoring views
(player_scores, player_rankings from the SQL schema), the creation
transaction coordinator (createVersusComplete), the legacy createVersus,
completion recording (completeObjective), objective editing
(updateObjective) and player-set editing (updateVersusPlayers), all from
src/app/actions/objectives.ts, src/unnamed/part_003 (schema),
src/unnamed/part_009 and src/unnamed/part_010, with the bulk-insert RPCs
from src/docs/database/migrations. UUIDs are modelled as natural numbers,
timestamps are dropped (no claim mentions them), and storage failures are
injected through an explicit fault structure.
-/

namespace WhoVersus

/-- Row of the players table (src/unnamed/part_003, section 1). -/
structure PlayerRow where
  id : Nat
  email : String
  display_name : Option String
deriving DecidableEq

/-- Row of the versus table. The column named type in SQL is called vtype
here because type is a reserved word in Lean. -/
structure VersusRow where
  id : Nat
  name : String
  vtype : Option String
  reverse_ranking : Bool
  created_by : Nat
deriving DecidableEq

/-- Row of the versus_players membership table. -/
structure VersusPlayerRow where
  versus_id : Nat
  player_id : Nat
  is_commissioner : Bool
  nickname : Option String
deriving DecidableEq

/-- Row of the objectives table. -/
structure ObjectiveRow where
  id : Nat
  versus_id : Nat
  title : String
  points : Int
  description : Option String
deriving DecidableEq

/-- Row of the completions table. -/
structure CompletionRow where
  id : Nat
  versus_id : Nat
  player_id : Nat
  objective_id : Nat
deriving DecidableEq

/-- The entity store: one list per table. -/
structure DB where
  players : List PlayerRow
  versus : List VersusRow
  versus_players : List VersusPlayerRow
  objectives : List ObjectiveRow
  completions : List CompletionRow
deriving DecidableEq

/-- Memberships of one versus (versus_players rows with the given versus_id). -/
def membersOf (db : DB) (vid : Nat) : List VersusPlayerRow :=
  db.versus_players.filter (fun vp => vp.versus_id == vid)

/-- Completion rows of one player inside one versus. -/
def completionsOf (db : DB) (vid pid : Nat) : List CompletionRow :=
  db.completions.filter (fun c => c.versus_id == vid && c.player_id == pid)

/-- Lookup of an objective row by primary key, as the objectives join
ON o.id = c.objective_id does. -/
def findObjective (db : DB) (oid : Nat) : Option ObjectiveRow :=
  db.objectives.find? (fun o => o.id == oid)

/-- The LEFT JOIN of one membership row against completions in the
player_scores view: with no matching completion a single null row
survives, otherwise one row per completion. -/
def joinRows (db : DB) (vp : VersusPlayerRow) : List (Option CompletionRow) :=
  if (completionsOf db vp.versus_id vp.player_id).isEmpty then [none]
  else (completionsOf db vp.versus_id vp.player_id).map some

/-- The second LEFT JOIN of the player_scores view followed by the
projection onto o.points: null completion rows and dangling objective
references yield SQL NULL. -/
def rowPoints (db : DB) (oc : Option CompletionRow) : Option Int :=
  oc.bind fun c => (findObjective db c.objective_id).map (fun o => o.points)

/-- COALESCE(SUM(o.points), 0) of the player_scores view: SQL SUM skips
NULL rows and COALESCE maps the empty (all-NULL) sum to 0. -/
def total_score (db : DB) (vp : VersusPlayerRow) : Int :=
  ((joinRows db vp).filterMap (rowPoints db)).sum

/-- The player_scores view restricted to one versus: one (player_id,
total_score) row per membership row of the GROUP BY. -/
def playerScores (db : DB) (vid : Nat) : List (Nat × Int) :=
  (membersOf db vid).map (fun vp => (vp.player_id, total_score db vp))

/-- COUNT(*) OVER (PARTITION BY versus_id) of the player_rankings view. -/
def total_players (db : DB) (vid : Nat) : Nat :=
  (membersOf db vid).length

/-- One pass of the SQL RANK() window function over the tail of the
ordered partition: pos is the 1-based position of the next row, s0 and r0
are the score and rank of the previous row; a row tied with its
predecessor repeats the predecessor rank, otherwise its rank is its
position. -/
def rankGo (pos : Nat) (s0 : Int) (r0 : Nat) : List (Nat × Int) → List (Nat × Int × Nat)
  | [] => []
  | (p, s) :: rest =>
    if s == s0 then (p, s, r0) :: rankGo (pos + 1) s0 r0 rest
    else (p, s, pos) :: rankGo (pos + 1) s pos rest

/-- RANK() over an ordered partition: the first row gets rank 1, the rest
are ranked by the scan above. -/
def assignRanks : List (Nat × Int) → List (Nat × Int × Nat)
  | [] => []
  | (p, s) :: rest => (p, s, 1) :: rankGo 2 s 1 rest

/-- Descending score comparison used by ORDER BY total_score DESC. -/
def descR (a b : Nat × Int) : Prop := b.2 ≤ a.2

/-- Ascending score comparison used by ORDER BY total_score ASC. -/
def ascR (a b : Nat × Int) : Prop := a.2 ≤ b.2

instance : DecidableRel descR := fun a b => Int.decLe b.2 a.2

instance : DecidableRel ascR := fun a b => Int.decLe a.2 b.2

instance : IsTotal (Nat × Int) descR := ⟨fun a b => le_total b.2 a.2⟩

instance : IsTrans (Nat × Int) descR := ⟨fun _ _ _ h1 h2 => le_trans h2 h1⟩

instance : IsTotal (Nat × Int) ascR := ⟨fun a b => le_total a.2 b.2⟩

instance : IsTrans (Nat × Int) ascR := ⟨fun _ _ _ h1 h2 => le_trans h1 h2⟩

/-- ORDER BY total_score with the direction selected by reverse_ranking
(src/unnamed/part_003, player_rankings view). -/
def sortScores (reverse : Bool) (rows : List (Nat × Int)) : List (Nat × Int) :=
  if reverse then List.insertionSort ascR rows else List.insertionSort descR rows

/-- The player_rankings view restricted to one versus: rows
(player_id, total_score, rank). -/
def player_rankings (db : DB) (v : VersusRow) : List (Nat × Int × Nat) :=
  assignRanks (sortScores v.reverse_ranking (playerScores db v.id))

/-- Strictly-better comparison in the direction given by reverse_ranking:
with reverse ranking a lower score is better, otherwise a higher one. -/
def strictlyBetter (reverse : Bool) (x y : Int) : Bool :=
  if reverse then x < y else y < x

theorem strictlyBetter_irrefl (rev : Bool) (a : Int) : strictlyBetter rev a a = false := by
  cases rev <;> simp [strictlyBetter]

theorem strictlyBetter_asym (rev : Bool) (a b : Int)
    (h1 : strictlyBetter rev a b = false) (h2 : strictlyBetter rev b a = false) : a = b := by
  cases rev <;> simp [strictlyBetter] at h1 h2 <;> omega

theorem rankGo_map (s0 : Int) (r0 pos : Nat) :
    ∀ l : List (Nat × Int), (rankGo pos s0 r0 l).map (fun x => (x.1, x.2.1)) = l := by
  intro l
  induction l generalizing pos s0 r0 with
  | nil => simp [rankGo]
  | cons hd tl ih =>
    obtain ⟨p, s⟩ := hd
    by_cases hss : s = s0 <;> simp [rankGo, hss, ih]

theorem assignRanks_map (l : List (Nat × Int)) :
    (assignRanks l).map (fun x => (x.1, x.2.1)) = l := by
  cases l with
  | nil => simp [assignRanks]
  | cons hd tl => obtain ⟨p, s⟩ := hd; simp [assignRanks, rankGo_map]

theorem rankGo_rank_eq (bt : Int → Int → Bool)
    (hirr : ∀ a, bt a a = false)
    (hasym : ∀ a b, bt a b = false → bt b a = false → a = b) :
    ∀ (rest pref : List (Nat × Int)) (s0 : Int) (r0 : Nat),
      (pref ++ rest).Pairwise (fun a b => bt b.2 a.2 = false) →
      (∀ q ∈ pref, bt s0 q.2 = false) →
      (∃ q ∈ pref, q.2 = s0) →
      r0 = pref.countP (fun q => bt q.2 s0) + 1 →
      ∀ x ∈ rankGo (pref.length + 1) s0 r0 rest,
        x.2.2 = (pref ++ rest).countP (fun q => bt q.2 x.2.1) + 1 := by
  intro rest
  induction rest with
  | nil =>
    intro pref s0 r0 _ _ _ _ x hx
    simp [rankGo] at hx
  | cons hd tl ih =>
    intro pref s0 r0 hpw hps0 hmem hr0 x hx
    obtain ⟨p, s⟩ := hd
    have hpwparts := List.pairwise_append.mp hpw
    obtain ⟨hp1, hp2, hp3⟩ := hpwparts
    obtain ⟨hhd, htl⟩ := List.pairwise_cons.mp hp2
    have F1 : ∀ a ∈ pref, bt s a.2 = false :=
      fun a ha => hp3 a ha (p, s) (List.mem_cons_self _ _)
    have F2 : ∀ b ∈ tl, bt b.2 s = false := fun b hb => hhd b hb
    have F3 : bt s s0 = false := by
      obtain ⟨q, hq, hq2⟩ := hmem
      have := F1 q hq
      rwa [hq2] at this
    by_cases hss : s = s0
    · subst hss
      have hunfold : rankGo (pref.length + 1) s r0 ((p, s) :: tl)
          = (p, s, r0) :: rankGo (pref.length + 1 + 1) s r0 tl := by
        simp [rankGo]
      rw [hunfold] at hx
      rcases List.mem_cons.mp hx with hx1 | hx2
      · subst hx1
        have hz : ((p, s) :: tl).countP (fun q => bt q.2 s) = 0 := by
          rw [List.countP_cons]
          have h0 : tl.countP (fun q => bt q.2 s) = 0 :=
            List.countP_eq_zero.mpr (fun b hb => by simp [F2 b hb])
          simp [h0, hirr s]
        simp only []
        rw [List.countP_append, hz, Nat.add_zero, ← hr0]
      · have hpw' : ((pref ++ [(p, s)]) ++ tl).Pairwise (fun a b => bt b.2 a.2 = false) := by
          rw [List.append_assoc]
          simpa using hpw
        have hps0' : ∀ q ∈ pref ++ [(p, s)], bt s q.2 = false := by
          intro q hq
          rcases List.mem_append.mp hq with h | h
          · exact hps0 q h
          · simp at h
            rw [h]
            exact hirr s
        have hmem' : ∃ q ∈ pref ++ [(p, s)], q.2 = s :=
          ⟨(p, s), by simp, rfl⟩
        have hr0' : r0 = (pref ++ [(p, s)]).countP (fun q => bt q.2 s) + 1 := by
          rw [List.countP_append, hr0]
          simp [hirr s]
        have hlen : (pref ++ [(p, s)]).length + 1 = pref.length + 1 + 1 := by simp
        have hmain := ih (pref ++ [(p, s)]) s r0 hpw' hps0' hmem' hr0' x (by rw [hlen]; exact hx2)
        rw [List.append_assoc] at hmain
        simpa using hmain
    · have hunfold : rankGo (pref.length + 1) s0 r0 ((p, s) :: tl)
          = (p, s, pref.length + 1) :: rankGo (pref.length + 1 + 1) s (pref.length + 1) tl := by
        simp [rankGo, hss]
      rw [hunfold] at hx
      have hbt_s0_s : bt s0 s = true := by
        cases h : bt s0 s with
        | true => rfl
        | false => exact absurd (hasym s s0 F3 h) hss
      have hpref_all : ∀ a ∈ pref, bt a.2 s = true := by
        intro a ha
        cases h : bt a.2 s with
        | true => rfl
        | false =>
          have h2 : a.2 = s := hasym a.2 s h (F1 a ha)
          have h3 := hps0 a ha
          rw [h2] at h3
          rw [h3] at hbt_s0_s
          exact absurd hbt_s0_s (by simp)
      have hcp : (pref ++ (p, s) :: tl).countP (fun q => bt q.2 s) = pref.length := by
        rw [List.countP_append, List.countP_cons]
        have h0 : tl.countP (fun q => bt q.2 s) = 0 :=
          List.countP_eq_zero.mpr (fun b hb => by simp [F2 b hb])
        have hfull : pref.countP (fun q => bt q.2 s) = pref.length :=
          List.countP_eq_length.mpr (fun a ha => by simp [hpref_all a ha])
        simp [h0, hfull, hirr s]
      rcases List.mem_cons.mp hx with hx1 | hx2
      · subst hx1
        simp only []
        rw [hcp]
      · have hpw' : ((pref ++ [(p, s)]) ++ tl).Pairwise (fun a b => bt b.2 a.2 = false) := by
          rw [List.append_assoc]
          simpa using hpw
        have hps0' : ∀ q ∈ pref ++ [(p, s)], bt s q.2 = false := by
          intro q hq
          rcases List.mem_append.mp hq with h | h
          · exact F1 q h
          · simp at h
            rw [h]
            exact hirr s
        have hmem' : ∃ q ∈ pref ++ [(p, s)], q.2 = s :=
          ⟨(p, s), by simp, rfl⟩
        have hr0' : pref.length + 1 = (pref ++ [(p, s)]).countP (fun q => bt q.2 s) + 1 := by
          rw [List.countP_append]
          have hfull : pref.countP (fun q => bt q.2 s) = pref.length :=
            List.countP_eq_length.mpr (fun a ha => by simp [hpref_all a ha])
          simp [hfull, hirr s]
        have hlen : (pref ++ [(p, s)]).length + 1 = pref.length + 1 + 1 := by simp
        have hmain := ih (pref ++ [(p, s)]) s (pref.length + 1) hpw' hps0' hmem' hr0' x
          (by rw [hlen]; exact hx2)
        rw [List.append_assoc] at hmain
        simpa using hmain

theorem assignRanks_rank_eq (bt : Int → Int → Bool)
    (hirr : ∀ a, bt a a = false)
    (hasym : ∀ a b, bt a b = false → bt b a = false → a = b)
    (rows : List (Nat × Int))
    (hpw : rows.Pairwise (fun a b => bt b.2 a.2 = false)) :
    ∀ x ∈ assignRanks rows, x.2.2 = rows.countP (fun q => bt q.2 x.2.1) + 1 := by
  cases rows with
  | nil => intro x hx; simp [assignRanks] at hx
  | cons hd tl =>
    obtain ⟨p, s⟩ := hd
    intro x hx
    obtain ⟨hhd, htl⟩ := List.pairwise_cons.mp hpw
    rcases List.mem_cons.mp hx with hx1 | hx2
    · subst hx1
      have hz : ((p, s) :: tl).countP (fun q => bt q.2 s) = 0 := by
        rw [List.countP_cons]
        have h0 : tl.countP (fun q => bt q.2 s) = 0 :=
          List.countP_eq_zero.mpr (fun b hb => by simp [hhd b hb])
        simp [h0, hirr s]
      simp only []
      rw [hz]
    · have h := rankGo_rank_eq bt hirr hasym tl [(p, s)] s 1
        (by simpa using hpw)
        (by intro q hq; simp at hq; rw [hq]; exact hirr s)
        ⟨(p, s), by simp, rfl⟩
        (by simp [hirr s])
        x (by simpa using hx2)
      simpa using h

theorem sortScores_pairwise (rev : Bool) (rows : List (Nat × Int)) :
    (sortScores rev rows).Pairwise (fun a b => strictlyBetter rev b.2 a.2 = false) := by
  cases rev
  · have h := List.sorted_insertionSort descR rows
    rw [sortScores]
    simp only [Bool.false_eq_true, if_neg]
    refine h.imp ?_
    intro a b hab
    simp only [descR] at hab
    simp [strictlyBetter]
    omega
  · have h := List.sorted_insertionSort ascR rows
    rw [sortScores]
    simp only [if_pos]
    refine h.imp ?_
    intro a b hab
    simp only [ascR] at hab
    simp [strictlyBetter]
    omega

theorem sortScores_perm (rev : Bool) (rows : List (Nat × Int)) :
    List.Perm (sortScores rev rows) rows := by
  cases rev <;> simp [sortScores] <;> exact List.perm_insertionSort _ _

theorem player_rankings_rank_characterization (db : DB) (v : VersusRow) :
    ∀ x ∈ player_rankings db v,
      x.2.2 = (playerScores db v.id).countP
          (fun q => strictlyBetter v.reverse_ranking q.2 x.2.1) + 1 := by
  intro x hx
  have h := assignRanks_rank_eq (strictlyBetter v.reverse_ranking)
      (strictlyBetter_irrefl _)
      (fun a b h1 h2 => strictlyBetter_asym _ a b h1 h2)
      (sortScores v.reverse_ranking (playerScores db v.id))
      (sortScores_pairwise _ _) x hx
  rw [h, (sortScores_perm v.reverse_ranking (playerScores db v.id)).countP_eq _]

theorem player_rankings_proj (db : DB) (v : VersusRow) :
    List.Perm ((player_rankings db v).map (fun x => (x.1, x.2.1))) (playerScores db v.id) := by
  rw [player_rankings, assignRanks_map]
  exact sortScores_perm _ _

theorem ranking_entry_mem_scores (db : DB) (v : VersusRow) :
    ∀ x ∈ player_rankings db v, (x.1, x.2.1) ∈ playerScores db v.id := by
  intro x hx
  have : (x.1, x.2.1) ∈ (player_rankings db v).map (fun x => (x.1, x.2.1)) :=
    List.mem_map.mpr ⟨x, hx, rfl⟩
  exact (player_rankings_proj db v).mem_iff.mp this

/-- Input shape of the players argument of createVersusComplete and
updateVersusPlayers (src/app/actions/objectives.ts). -/
structure PlayerInput where
  player_id : Nat
  is_commissioner : Bool
  nickname : Option String
deriving DecidableEq

/-- Input shape of the objectives argument of createVersusComplete. -/
structure ObjectiveInput where
  title : String
  points : Int
  description : Option String
deriving DecidableEq

/-- Versus settings argument (name, type, reverse_ranking). -/
structure VersusConfig where
  name : String
  vtype : Option String
  reverse_ranking : Bool
deriving DecidableEq

/-- Result of a creation call: the created versus id or one error. -/
inductive CreateResult where
  | ok (vid : Nat)
  | err (msg : String)
deriving DecidableEq

/-- Faults injected by the storage layer into one createVersusComplete
call. failVersusInsert makes the create_versus_as_user RPC fail (no row
written). playersFailAfter = some k makes the add_players_to_versus RPC
report an error after k membership rows were accepted; none means the
step succeeds. objectivesFailAfter is the same for the
create_objectives_for_versus RPC. failRollbackDelete makes the
compensating DELETE on the versus table fail. -/
structure Faults where
  failVersusInsert : Bool
  playersFailAfter : Option Nat
  objectivesFailAfter : Option Nat
  failRollbackDelete : Bool
deriving DecidableEq

/-- ON DELETE CASCADE semantics of the schema (src/unnamed/part_003):
deleting a versus row removes its memberships, its objectives, and every
completion that references the versus directly or references one of the
deleted objectives. -/
def deleteVersusCascade (db : DB) (vid : Nat) : DB :=
  { db with
    versus := db.versus.filter (fun r => !(r.id == vid)),
    versus_players := db.versus_players.filter (fun vp => !(vp.versus_id == vid)),
    objectives := db.objectives.filter (fun o => !(o.versus_id == vid)),
    completions := db.completions.filter (fun c => !(c.versus_id == vid) &&
      !(((db.objectives.filter (fun o => o.versus_id == vid)).map (fun o => o.id)).contains c.objective_id)) }

/-- Step 1 write of both creation paths: append the new versus row. -/
def insertVersusRow (db : DB) (vid : Nat) (cfg : VersusConfig) (caller : Nat) : DB :=
  { db with versus := db.versus ++ [⟨vid, cfg.name, cfg.vtype, cfg.reverse_ranking, caller⟩] }

/-- Effect of the add_players_to_versus RPC loop on the store. -/
def insertPlayers (db : DB) (vid : Nat) (ps : List PlayerInput) : DB :=
  { db with versus_players := db.versus_players ++
      ps.map (fun p => ⟨vid, p.player_id, p.is_commissioner, p.nickname⟩) }

/-- Effect of the create_objectives_for_versus RPC loop on the store;
generated objective ids are base, base+1, and so on. -/
def insertObjectives (db : DB) (vid base : Nat) (os : List ObjectiveInput) : DB :=
  { db with objectives := db.objectives ++
      os.enum.map (fun pr => ⟨base + pr.1, vid, pr.2.title, pr.2.points, pr.2.description⟩) }

/-- Observable outcome of one createVersusComplete call: returned value,
final store, how many compensating DELETE statements were issued, and
whether the CRITICAL rollback-failed condition was logged. -/
structure CreateOutcome where
  result : CreateResult
  db : DB
  deleteAttempts : Nat
  criticalLogged : Bool
deriving DecidableEq

/-- The catch block of createVersusComplete once a versus row exists:
issue one compensating delete of the created versus row; if that delete
itself fails, log the CRITICAL manual-cleanup condition and keep the
rows; either way return the step error to the caller. -/
def rollback (db : DB) (vid : Nat) (f : Faults) (msg : String) : CreateOutcome :=
  if f.failRollbackDelete then ⟨.err msg, db, 1, true⟩
  else ⟨.err msg, deleteVersusCascade db vid, 1, false⟩

/-- The creation transaction coordinator createVersusComplete
(src/app/actions/objectives.ts lines 925 to 1124): player-record check
and the two emptiness validations, then the three ordered insert steps
through the SECURITY DEFINER RPCs, with the manual rollback of the catch
block on a step failure. freshVid is the id generated for the versus row
and freshOidBase seeds generated objective ids. -/
def createVersusComplete (db : DB) (caller : Nat) (cfg : VersusConfig)
    (playersData : List PlayerInput) (objectivesData : List ObjectiveInput)
    (freshVid freshOidBase : Nat) (f : Faults) : CreateOutcome :=
  if (db.players.find? (fun p => p.id == caller)).isNone then
    ⟨.err "Player record not found. Please try logging out and back in.", db, 0, false⟩
  else if playersData.isEmpty then
    ⟨.err "At least one player required", db, 0, false⟩
  else if objectivesData.isEmpty then
    ⟨.err "At least one objective required", db, 0, false⟩
  else if f.failVersusInsert then
    ⟨.err "Failed to create Versus", db, 0, false⟩
  else
    match f.playersFailAfter with
    | some k =>
      rollback (insertPlayers (insertVersusRow db freshVid cfg caller) freshVid
        (playersData.take k)) freshVid f "Failed to add players"
    | none =>
      match f.objectivesFailAfter with
      | some k =>
        rollback (insertObjectives (insertPlayers (insertVersusRow db freshVid cfg caller)
          freshVid playersData) freshVid freshOidBase (objectivesData.take k))
          freshVid f "Failed to create objectives"
      | none =>
        ⟨.ok freshVid, insertObjectives (insertPlayers (insertVersusRow db freshVid cfg caller)
          freshVid playersData) freshVid freshOidBase objectivesData, 0, false⟩

/-- The legacy single-entity createVersus (src/unnamed/part_010 lines 290
to 328): insert the versus row, then insert the creator membership; a
membership-insert failure returns the error with no compensating
delete. -/
def createVersusLegacy (db : DB) (caller : Nat) (cfg : VersusConfig) (freshVid : Nat)
    (failVersusInsert failPlayerInsert : Bool) : CreateResult × DB :=
  if failVersusInsert then (.err "versus insert failed", db)
  else if failPlayerInsert then
    (.err "player insert failed", insertVersusRow db freshVid cfg caller)
  else
    (.ok freshVid, insertPlayers (insertVersusRow db freshVid cfg caller) freshVid
      [⟨caller, true, none⟩])

/-- The points-editing instance of updateObjective
(src/app/actions/objectives.ts lines 93 to 147): look the objective up to
find its versus, require the caller to be a commissioner of that versus,
then update the single objectives row. none models the error returns. -/
def updateObjectivePoints (db : DB) (caller oid : Nat) (newPoints : Int) : Option DB :=
  match db.objectives.find? (fun o => o.id == oid) with
  | none => none
  | some obj =>
    if (db.versus_players.find? (fun vp =>
        vp.versus_id == obj.versus_id && vp.player_id == caller && vp.is_commissioner)).isNone
    then none
    else some { db with objectives := db.objectives.map (fun o =>
        if o.id == oid then { o with points := newPoints } else o) }

/-- Phase one of updateVersusPlayers: for each desired entry, update the
existing membership row in place when the snapshot of current players
contains the player, otherwise insert a new membership row. The insert is
rejected by storage, with the Failed-to-add-player error thrown by the
source, when the versus_players.player_id foreign key does not resolve or
the UNIQUE(versus_id, player_id) constraint would be violated; the loop
then stops, keeping the writes already applied. -/
def applyPlayerUpdates (versusId : Nat) (current : List VersusPlayerRow) :
    DB → List PlayerInput → (Option String) × DB
  | db, [] => (none, db)
  | db, pu :: rest =>
    if current.any (fun p => p.player_id == pu.player_id) then
      applyPlayerUpdates versusId current
        { db with versus_players := db.versus_players.map (fun vp =>
            if vp.versus_id == versusId && vp.player_id == pu.player_id then
              { vp with nickname := pu.nickname, is_commissioner := pu.is_commissioner }
            else vp) } rest
    else if (db.players.find? (fun pl => pl.id == pu.player_id)).isNone
        || db.versus_players.any (fun vp =>
            vp.versus_id == versusId && vp.player_id == pu.player_id) then
      (some "Failed to add player", db)
    else
      applyPlayerUpdates versusId current
        { db with versus_players := db.versus_players ++
            [⟨versusId, pu.player_id, pu.is_commissioner, pu.nickname⟩] } rest

/-- Deletion of one membership row by (versus_id, player_id). -/
def removePlayer (versusId pid : Nat) (db : DB) : DB :=
  let keep := db.versus_players.filter (fun vp => !(vp.versus_id == versusId && vp.player_id == pid))
  { db with versus_players := keep }

/-- Phase two of updateVersusPlayers: delete, one by one, the snapshot
rows absent from the desired list; before deleting the caller while the
snapshot marks the caller commissioner, require another commissioner in
the desired list, otherwise stop with the last-commissioner error,
keeping every write already applied. -/
def removeLoop (caller versusId : Nat) (pd : List PlayerInput) :
    DB → List VersusPlayerRow → (Option String) × DB
  | db, [] => (none, db)
  | db, p :: rest =>
    if p.player_id == caller && p.is_commissioner then
      if (pd.filter (fun q => q.is_commissioner && !(q.player_id == caller))).isEmpty then
        (some "Cannot remove the last commissioner", db)
      else
        removeLoop caller versusId pd (removePlayer versusId p.player_id db) rest
    else
      removeLoop caller versusId pd (removePlayer versusId p.player_id db) rest

/-- updateVersusPlayers (src/app/actions/objectives.ts lines 1216 to
1364): commissioner gate, versus-exists check, then the update/insert
loop (whose thrown error is caught and returned with the writes so far
kept) followed by the removal loop over the pre-call membership
snapshot. The first component is the error, none meaning success. -/
def updateVersusPlayers (db : DB) (caller versusId : Nat) (pd : List PlayerInput) :
    (Option String) × DB :=
  if (db.versus_players.find? (fun vp =>
      vp.versus_id == versusId && vp.player_id == caller && vp.is_commissioner)).isNone then
    (some "Only commissioners can edit players", db)
  else if (db.versus.find? (fun v => v.id == versusId)).isNone then
    (some "Versus not found", db)
  else if (applyPlayerUpdates versusId (membersOf db versusId) db pd).1 = none then
    removeLoop caller versusId pd
      (applyPlayerUpdates versusId (membersOf db versusId) db pd).2
      ((membersOf db versusId).filter
        (fun p => !(pd.any (fun q => q.player_id == p.player_id))))
  else
    applyPlayerUpdates versusId (membersOf db versusId) db pd

/-- completeObjective (src/unnamed/part_009 lines 10 to 57): membership
check on the completion's versus, identity check on the completion's
player, then the insert; the insert itself is accepted by storage when
the three foreign keys resolve (the schema never requires the objective
to belong to the same versus). The first component is the error, none
meaning success. -/
def completeObjective (db : DB) (caller versusId playerId objectiveId freshCid : Nat) :
    (Option String) × DB :=
  if (db.versus_players.find? (fun vp =>
      vp.versus_id == versusId && vp.player_id == caller)).isNone then
    (some "You do not have access to this versus", db)
  else if !(playerId == caller) then
    (some "You can only complete objectives for yourself", db)
  else if (db.versus.find? (fun v => v.id == versusId)).isNone
      || (db.players.find? (fun p => p.id == playerId)).isNone
      || (db.objectives.find? (fun o => o.id == objectiveId)).isNone then
    (some "insert failed: foreign key violation", db)
  else
    (none, { db with completions := db.completions ++ [⟨freshCid, versusId, playerId, objectiveId⟩] })

theorem exists_ranking_entry (db : DB) (v : VersusRow) :
    ∀ ps ∈ playerScores db v.id, ∃ r, (ps.1, ps.2, r) ∈ player_rankings db v := by
  intro ps hps
  have : ps ∈ (player_rankings db v).map (fun x => (x.1, x.2.1)) :=
    (player_rankings_proj db v).mem_iff.mpr hps
  obtain ⟨x, hx, hproj⟩ := List.mem_map.mp this
  refine ⟨x.2.2, ?_⟩
  have h1 : x.1 = ps.1 := by rw [← hproj]
  have h2 : x.2.1 = ps.2 := by rw [← hproj]
  have : (ps.1, ps.2, x.2.2) = x := by
    rw [← h1, ← h2]
  rwa [this]

theorem isEmpty_false_of_ne_nil {α} {l : List α} (h : l ≠ []) : l.isEmpty = false := by
  cases l with
  | nil => exact absurd rfl h
  | cons a t => rfl

theorem filter_not_filter {α} (p : α → Bool) (l : List α) :
    (l.filter (fun a => !(p a))).filter p = [] := by
  induction l with
  | nil => rfl
  | cons a l ih => by_cases h : p a <;> simp [List.filter_cons, h, ih]

theorem deleteVersusCascade_zero (db : DB) (vid : Nat) :
    ((deleteVersusCascade db vid).versus.filter (fun r => r.id == vid) = [])
    ∧ ((deleteVersusCascade db vid).versus_players.filter (fun vp => vp.versus_id == vid) = [])
    ∧ ((deleteVersusCascade db vid).objectives.filter (fun o => o.versus_id == vid) = []) := by
  refine ⟨?_, ?_, ?_⟩ <;>
    simp only [deleteVersusCascade] <;>
    exact filter_not_filter _ _

/-- C1: when the memberships-insert or objectives-insert step of
createVersusComplete fails after the versus row was inserted (and the
compensating delete itself is not failed by storage), the coordinator
issues the compensating delete, the cascade leaves zero rows in versus,
versus_players and objectives for that attempt, and the caller receives a
single error. -/
theorem c1_compensating_delete (db : DB) (caller : Nat) (cfg : VersusConfig)
    (ps : List PlayerInput) (os : List ObjectiveInput) (vid base : Nat) (f : Faults)
    (hcaller : (db.players.find? (fun p => p.id == caller)).isSome)
    (hps : ps ≠ []) (hos : os ≠ [])
    (hvi : f.failVersusInsert = false)
    (hstep : f.playersFailAfter ≠ none ∨ f.objectivesFailAfter ≠ none)
    (hrb : f.failRollbackDelete = false) :
    (∃ msg, (createVersusComplete db caller cfg ps os vid base f).result = CreateResult.err msg)
    ∧ (createVersusComplete db caller cfg ps os vid base f).deleteAttempts = 1
    ∧ (createVersusComplete db caller cfg ps os vid base f).db.versus.filter
        (fun r => r.id == vid) = []
    ∧ (createVersusComplete db caller cfg ps os vid base f).db.versus_players.filter
        (fun vp => vp.versus_id == vid) = []
    ∧ (createVersusComplete db caller cfg ps os vid base f).db.objectives.filter
        (fun o => o.versus_id == vid) = [] := by
  have h1 : (db.players.find? (fun p => p.id == caller)).isNone = false := by
    cases hfind : db.players.find? (fun p => p.id == caller) with
    | none => rw [hfind] at hcaller; simp at hcaller
    | some p => rfl
  have hps' := isEmpty_false_of_ne_nil hps
  have hos' := isEmpty_false_of_ne_nil hos
  cases hpf : f.playersFailAfter with
  | some k =>
    have hout : createVersusComplete db caller cfg ps os vid base f
        = ⟨CreateResult.err "Failed to add players",
            deleteVersusCascade (insertPlayers (insertVersusRow db vid cfg caller) vid
              (ps.take k)) vid, 1, false⟩ := by
      simp [createVersusComplete, h1, hps', hos', hvi, hpf, rollback, hrb]
    rw [hout]
    exact ⟨⟨_, rfl⟩, rfl, deleteVersusCascade_zero _ _⟩
  | none =>
    cases hof : f.objectivesFailAfter with
    | some k =>
      have hout : createVersusComplete db caller cfg ps os vid base f
          = ⟨CreateResult.err "Failed to create objectives",
              deleteVersusCascade (insertObjectives (insertPlayers
                (insertVersusRow db vid cfg caller) vid ps) vid base (os.take k)) vid,
              1, false⟩ := by
        simp [createVersusComplete, h1, hps', hos', hvi, hpf, hof, rollback, hrb]
      rw [hout]
      exact ⟨⟨_, rfl⟩, rfl, deleteVersusCascade_zero _ _⟩
    | none =>
      rcases hstep with h | h
      · exact absurd hpf h
      · exact absurd hof h

/-- C1 witness: a concrete creation attempt whose objectives insert fails
after one membership row was accepted is fully rolled back. -/
theorem c1_compensating_delete_witness :
    (∃ msg, (createVersusComplete ⟨[⟨1, "a", none⟩], [], [], [], []⟩ 1 ⟨"V", none, false⟩
        [⟨1, true, none⟩] [⟨"x", 1, none⟩] 7 50 ⟨false, none, some 0, false⟩).result
        = CreateResult.err msg)
    ∧ (createVersusComplete ⟨[⟨1, "a", none⟩], [], [], [], []⟩ 1 ⟨"V", none, false⟩
        [⟨1, true, none⟩] [⟨"x", 1, none⟩] 7 50 ⟨false, none, some 0, false⟩).deleteAttempts = 1
    ∧ (createVersusComplete ⟨[⟨1, "a", none⟩], [], [], [], []⟩ 1 ⟨"V", none, false⟩
        [⟨1, true, none⟩] [⟨"x", 1, none⟩] 7 50 ⟨false, none, some 0, false⟩).db.versus.filter
        (fun r => r.id == 7) = []
    ∧ (createVersusComplete ⟨[⟨1, "a", none⟩], [], [], [], []⟩ 1 ⟨"V", none, false⟩
        [⟨1, true, none⟩] [⟨"x", 1, none⟩] 7 50
        ⟨false, none, some 0, false⟩).db.versus_players.filter
        (fun vp => vp.versus_id == 7) = []
    ∧ (createVersusComplete ⟨[⟨1, "a", none⟩], [], [], [], []⟩ 1 ⟨"V", none, false⟩
        [⟨1, true, none⟩] [⟨"x", 1, none⟩] 7 50 ⟨false, none, some 0, false⟩).db.objectives.filter
        (fun o => o.versus_id == 7) = [] :=
  c1_compensating_delete ⟨[⟨1, "a", none⟩], [], [], [], []⟩ 1 ⟨"V", none, false⟩
    [⟨1, true, none⟩] [⟨"x", 1, none⟩] 7 50 ⟨false, none, some 0, false⟩
    (by decide) (by decide) (by decide) rfl (Or.inr (by decide)) rfl

/-- C2 counterexample: a createVersusComplete call whose players list has
thirteen entries and no creator entry, and whose single objective has
point magnitude far above 999999, is not rejected: it succeeds and writes
rows, refuting the claim that violating any of the listed preconditions
returns a validation error with zero writes. -/
theorem c2_preconditions_counterexample :
    (createVersusComplete ⟨(List.range 14).map (fun i => ⟨i + 1, "", none⟩), [], [], [], []⟩ 1
        ⟨"V", none, false⟩ ((List.range 13).map (fun i => ⟨i + 2, false, none⟩))
        [⟨"big", 5000000, none⟩] 100 200 ⟨false, none, none, false⟩).result
      = CreateResult.ok 100
    ∧ (createVersusComplete ⟨(List.range 14).map (fun i => ⟨i + 1, "", none⟩), [], [], [], []⟩ 1
        ⟨"V", none, false⟩ ((List.range 13).map (fun i => ⟨i + 2, false, none⟩))
        [⟨"big", 5000000, none⟩] 100 200
        ⟨false, none, none, false⟩).db.versus_players.length = 13 := by
  constructor <;> decide

/-- C2 as amended: the only preconditions createVersusComplete checks
before any write are that the caller has a player record and that the
players and objectives lists are non-empty; violating any of these
returns an error with zero writes and no delete issued. The duplicate,
creator-entry, twelve-entry and point-magnitude preconditions of the spec
are not checked by the coordinator. -/
theorem c2_validation_amended (db : DB) (caller : Nat) (cfg : VersusConfig)
    (ps : List PlayerInput) (os : List ObjectiveInput) (vid base : Nat) (f : Faults)
    (h : ps = [] ∨ os = [] ∨ db.players.find? (fun p => p.id == caller) = none) :
    (∃ msg, (createVersusComplete db caller cfg ps os vid base f).result = CreateResult.err msg)
    ∧ (createVersusComplete db caller cfg ps os vid base f).db = db
    ∧ (createVersusComplete db caller cfg ps os vid base f).deleteAttempts = 0 := by
  have hout : ∃ m, createVersusComplete db caller cfg ps os vid base f
      = ⟨CreateResult.err m, db, 0, false⟩ := by
    by_cases h1 : (db.players.find? (fun p => p.id == caller)).isNone
    · exact ⟨"Player record not found. Please try logging out and back in.",
        by simp [createVersusComplete, h1]⟩
    · rcases h with h | h | h
      · exact ⟨"At least one player required", by subst h; simp [createVersusComplete, h1]⟩
      · by_cases h2 : ps.isEmpty
        · exact ⟨"At least one player required", by simp [createVersusComplete, h1, h2]⟩
        · exact ⟨"At least one objective required",
            by subst h; simp [createVersusComplete, h1, h2]⟩
      · exact absurd (by simp [h] : (db.players.find? (fun p => p.id == caller)).isNone) h1
  obtain ⟨m, hm⟩ := hout
  rw [hm]
  exact ⟨⟨m, rfl⟩, rfl, rfl⟩

/-- C2 witness: a call with zero objectives returns an error and performs
zero writes. -/
theorem c2_validation_amended_witness :
    (∃ msg, (createVersusComplete ⟨[⟨1, "a", none⟩], [], [], [], []⟩ 1 ⟨"V", none, false⟩
        [⟨1, true, none⟩] [] 5 6 ⟨false, none, none, false⟩).result = CreateResult.err msg)
    ∧ (createVersusComplete ⟨[⟨1, "a", none⟩], [], [], [], []⟩ 1 ⟨"V", none, false⟩
        [⟨1, true, none⟩] [] 5 6 ⟨false, none, none, false⟩).db
      = ⟨[⟨1, "a", none⟩], [], [], [], []⟩
    ∧ (createVersusComplete ⟨[⟨1, "a", none⟩], [], [], [], []⟩ 1 ⟨"V", none, false⟩
        [⟨1, true, none⟩] [] 5 6 ⟨false, none, none, false⟩).deleteAttempts = 0 :=
  c2_validation_amended ⟨[⟨1, "a", none⟩], [], [], [], []⟩ 1 ⟨"V", none, false⟩
    [⟨1, true, none⟩] [] 5 6 ⟨false, none, none, false⟩ (Or.inr (Or.inl rfl))

/-- C3: createVersusComplete never reports success when a creation step
failed; the compensating delete is issued at most once and never retried;
and the CRITICAL rollback-failure condition is logged exactly when the
single compensating delete was issued and failed, distinguishing it from
ordinary errors. -/
theorem c3_error_propagation (db : DB) (caller : Nat) (cfg : VersusConfig)
    (ps : List PlayerInput) (os : List ObjectiveInput) (vid base : Nat) (f : Faults) :
    ((f.failVersusInsert = true ∨ f.playersFailAfter ≠ none ∨ f.objectivesFailAfter ≠ none) →
      ∃ msg, (createVersusComplete db caller cfg ps os vid base f).result = CreateResult.err msg)
    ∧ (∀ v', (createVersusComplete db caller cfg ps os vid base f).result = CreateResult.ok v' →
        f.failVersusInsert = false ∧ f.playersFailAfter = none ∧ f.objectivesFailAfter = none)
    ∧ (createVersusComplete db caller cfg ps os vid base f).deleteAttempts ≤ 1
    ∧ ((createVersusComplete db caller cfg ps os vid base f).criticalLogged = true ↔
        f.failRollbackDelete = true
          ∧ (createVersusComplete db caller cfg ps os vid base f).deleteAttempts = 1) := by
  unfold createVersusComplete
  split
  · exact ⟨fun _ => ⟨_, rfl⟩, fun v' hv' => by simp at hv', by simp, by simp⟩
  · split
    · exact ⟨fun _ => ⟨_, rfl⟩, fun v' hv' => by simp at hv', by simp, by simp⟩
    · split
      · exact ⟨fun _ => ⟨_, rfl⟩, fun v' hv' => by simp at hv', by simp, by simp⟩
      · split
        · rename_i hfv
          exact ⟨fun _ => ⟨_, rfl⟩, fun v' hv' => by simp at hv', by simp, by simp⟩
        · rename_i hfv
          split
          · unfold rollback
            split
            · rename_i hfr
              exact ⟨fun _ => ⟨_, rfl⟩, fun v' hv' => by simp at hv', by simp, by simp [hfr]⟩
            · rename_i hfr
              exact ⟨fun _ => ⟨_, rfl⟩, fun v' hv' => by simp at hv', by simp,
                by simp; exact Bool.eq_false_iff.mpr hfr⟩
          · split
            · unfold rollback
              split
              · rename_i hfr
                exact ⟨fun _ => ⟨_, rfl⟩, fun v' hv' => by simp at hv', by simp, by simp [hfr]⟩
              · rename_i hfr
                exact ⟨fun _ => ⟨_, rfl⟩, fun v' hv' => by simp at hv', by simp,
                  by simp; exact Bool.eq_false_iff.mpr hfr⟩
            · rename_i x1 hpf x2 hof
              refine ⟨?_, ?_, by simp, by simp⟩
              · intro hbad
                rcases hbad with hb | hb | hb
                · exact absurd hb (by simpa using hfv)
                · exact absurd hpf hb
                · exact absurd hof hb
              · intro v' _
                exact ⟨by simpa using hfv, hpf, hof⟩

/-- C3 witness: a concrete call whose objectives insert fails and whose
compensating delete also fails still returns an error, issues exactly one
delete, and logs the CRITICAL condition. -/
theorem c3_error_propagation_witness :
    ∃ msg, (createVersusComplete ⟨[⟨1, "a", none⟩], [], [], [], []⟩ 1 ⟨"V", none, false⟩
        [⟨1, true, none⟩] [⟨"x", 1, none⟩] 7 50 ⟨false, none, some 0, true⟩).result
      = CreateResult.err msg :=
  (c3_error_propagation ⟨[⟨1, "a", none⟩], [], [], [], []⟩ 1 ⟨"V", none, false⟩
    [⟨1, true, none⟩] [⟨"x", 1, none⟩] 7 50 ⟨false, none, some 0, true⟩).1
    (Or.inr (Or.inr (by decide)))

/-- C9: the legacy createVersus has no compensating delete: when the
creator-membership insert fails after the versus insert succeeded, the
call returns an error while the new versus row remains in the store with
zero memberships. -/
theorem c9_legacy_orphan (db : DB) (caller : Nat) (cfg : VersusConfig) (vid : Nat)
    (hfresh : db.versus_players.filter (fun vp => vp.versus_id == vid) = []) :
    (∃ msg, (createVersusLegacy db caller cfg vid false true).1 = CreateResult.err msg)
    ∧ (∃ vrow ∈ (createVersusLegacy db caller cfg vid false true).2.versus, vrow.id = vid)
    ∧ (createVersusLegacy db caller cfg vid false true).2.versus_players.filter
        (fun vp => vp.versus_id == vid) = [] := by
  refine ⟨⟨"player insert failed", rfl⟩,
    ⟨⟨vid, cfg.name, cfg.vtype, cfg.reverse_ranking, caller⟩, ?_, rfl⟩, ?_⟩
  · simp [createVersusLegacy, insertVersusRow]
  · simpa [createVersusLegacy, insertVersusRow] using hfresh

/-- C9 witness: a concrete orphaned versus. -/
theorem c9_legacy_orphan_witness :
    (∃ msg, (createVersusLegacy ⟨[⟨1, "a", none⟩], [], [], [], []⟩ 1 ⟨"V", none, false⟩ 3
        false true).1 = CreateResult.err msg)
    ∧ (∃ vrow ∈ (createVersusLegacy ⟨[⟨1, "a", none⟩], [], [], [], []⟩ 1 ⟨"V", none, false⟩ 3
        false true).2.versus, vrow.id = 3)
    ∧ (createVersusLegacy ⟨[⟨1, "a", none⟩], [], [], [], []⟩ 1 ⟨"V", none, false⟩ 3
        false true).2.versus_players.filter (fun vp => vp.versus_id == 3) = [] :=
  c9_legacy_orphan ⟨[⟨1, "a", none⟩], [], [], [], []⟩ 1 ⟨"V", none, false⟩ 3 rfl

theorem filterMap_congr_some {α β} (f : α → Option β) (g : α → β) :
    ∀ l : List α, (∀ a ∈ l, f a = some (g a)) → l.filterMap f = l.map g := by
  intro l
  induction l with
  | nil => intro _; rfl
  | cons a t ih =>
    intro h
    rw [List.filterMap_cons, h a (List.mem_cons_self _ _), List.map_cons,
      ih (fun b hb => h b (List.mem_cons_of_mem _ hb))]

theorem total_score_spec (db : DB) (vp : VersusPlayerRow)
    (hfk : ∀ c ∈ db.completions, ∃ o ∈ db.objectives, o.id = c.objective_id) :
    total_score db vp = ((completionsOf db vp.versus_id vp.player_id).map (fun c =>
      ((findObjective db c.objective_id).map (fun o => o.points)).getD 0)).sum := by
  unfold total_score joinRows
  by_cases hcs : (completionsOf db vp.versus_id vp.player_id).isEmpty
  · rw [if_pos hcs]
    have hnil : completionsOf db vp.versus_id vp.player_id = [] := by
      simpa using hcs
    rw [hnil]
    simp [rowPoints]
  · rw [if_neg hcs, List.filterMap_map]
    refine congrArg List.sum (filterMap_congr_some _ _ _ ?_)
    intro c hc
    have hcdb : c ∈ db.completions := (List.mem_filter.mp hc).1
    obtain ⟨o, ho, hid⟩ := hfk c hcdb
    have hsome : (findObjective db c.objective_id).isSome := by
      rw [findObjective, List.find?_isSome]
      exact ⟨o, ho, by simp [hid]⟩
    obtain ⟨ov, hov⟩ := Option.isSome_iff_exists.mp hsome
    simp [Function.comp, rowPoints, hov]

theorem total_score_zero (db : DB) (vp : VersusPlayerRow)
    (h : completionsOf db vp.versus_id vp.player_id = []) : total_score db vp = 0 := by
  unfold total_score joinRows
  rw [h]
  simp [rowPoints]

/-- C4: the scoreboard of a versus has exactly one entry per membership
row, each member's score is the sum of the points of the objective
referenced by each of that member's completions in that versus, and a
member with no completions scores 0. Hypotheses: foreign-key integrity of
completions.objective_id and the UNIQUE(versus_id, player_id) constraint
of the schema. -/
theorem c4_scoreboard_scores (db : DB) (vid : Nat)
    (hfk : ∀ c ∈ db.completions, ∃ o ∈ db.objectives, o.id = c.objective_id)
    (hnd : ((membersOf db vid).map (fun vp => vp.player_id)).Nodup) :
    ((playerScores db vid).map Prod.fst = (membersOf db vid).map (fun vp => vp.player_id))
    ∧ (∀ vp ∈ membersOf db vid,
        (playerScores db vid).countP (fun e => e.1 == vp.player_id) = 1)
    ∧ (∀ vp ∈ membersOf db vid,
        total_score db vp = ((completionsOf db vid vp.player_id).map (fun c =>
          ((findObjective db c.objective_id).map (fun o => o.points)).getD 0)).sum)
    ∧ (∀ vp ∈ membersOf db vid, completionsOf db vid vp.player_id = [] →
        total_score db vp = 0) := by
  refine ⟨?_, ?_, ?_, ?_⟩
  · rw [playerScores, List.map_map]
    rfl
  · intro vp hvp
    rw [playerScores, List.countP_map]
    have hcnt : (membersOf db vid).countP
        ((fun e : Nat × Int => e.1 == vp.player_id) ∘
          (fun vp' => (vp'.player_id, total_score db vp')))
        = ((membersOf db vid).map (fun vp' => vp'.player_id)).count vp.player_id := by
      rw [List.count_eq_countP, List.countP_map]
      rfl
    rw [hcnt]
    exact List.count_eq_one_of_mem hnd (List.mem_map.mpr ⟨vp, hvp, rfl⟩)
  · intro vp hvp
    have hv : vp.versus_id = vid := by
      simpa using (List.mem_filter.mp hvp).2
    have := total_score_spec db vp hfk
    rwa [hv] at this
  · intro vp hvp hnil
    have hv : vp.versus_id = vid := by
      simpa using (List.mem_filter.mp hvp).2
    exact total_score_zero db vp (by rwa [hv])

/-- Concrete store of scenario 1 of the spec: versus 1 has members 1, 2, 3
and objectives worth 10, 5 and 8 points; member 1 completed the first two;
versus 2 is the same game with reverse_ranking set. -/
def dbScenario : DB :=
  ⟨[⟨1, "a", none⟩, ⟨2, "b", none⟩, ⟨3, "c", none⟩],
   [⟨1, "V", none, false, 1⟩, ⟨2, "W", none, true, 1⟩],
   [⟨1, 1, true, none⟩, ⟨1, 2, false, none⟩, ⟨1, 3, false, none⟩,
    ⟨2, 1, true, none⟩, ⟨2, 2, false, none⟩, ⟨2, 3, false, none⟩],
   [⟨1, 1, "o1", 10, none⟩, ⟨2, 1, "o2", 5, none⟩, ⟨3, 1, "o3", 8, none⟩,
    ⟨4, 2, "p1", 10, none⟩, ⟨5, 2, "p2", 5, none⟩],
   [⟨1, 1, 1, 1⟩, ⟨2, 1, 1, 2⟩, ⟨3, 2, 1, 4⟩, ⟨4, 2, 1, 5⟩]⟩

/-- C4 witness: the scenario store satisfies both hypotheses and the
scoreboard conclusions. -/
theorem c4_scoreboard_scores_witness :
    ((playerScores dbScenario 1).map Prod.fst
        = (membersOf dbScenario 1).map (fun vp => vp.player_id))
    ∧ (∀ vp ∈ membersOf dbScenario 1,
        (playerScores dbScenario 1).countP (fun e => e.1 == vp.player_id) = 1)
    ∧ (∀ vp ∈ membersOf dbScenario 1,
        total_score dbScenario vp = ((completionsOf dbScenario 1 vp.player_id).map (fun c =>
          ((findObjective dbScenario c.objective_id).map (fun o => o.points)).getD 0)).sum)
    ∧ (∀ vp ∈ membersOf dbScenario 1, completionsOf dbScenario 1 vp.player_id = [] →
        total_score dbScenario vp = 0) :=
  c4_scoreboard_scores dbScenario 1 (by decide) (by decide)

theorem countP_lt_of_witness {α} {l : List α} {p q : α → Bool} {a : α}
    (ha : a ∈ l) (hpa : p a = false) (hqa : q a = true)
    (himp : ∀ b, p b = true → q b = true) :
    l.countP p < l.countP q := by
  obtain ⟨s, t, rfl⟩ := List.append_of_mem ha
  rw [List.countP_append, List.countP_append, List.countP_cons, List.countP_cons, hpa, hqa]
  have h1 : s.countP p ≤ s.countP q := List.countP_mono_left (fun b _ hb => himp b hb)
  have h2 : t.countP p ≤ t.countP q := List.countP_mono_left (fun b _ hb => himp b hb)
  simp only [Bool.false_eq_true, Bool.true_eq_false, if_true, if_false, ite_true, ite_false,
    if_neg, reduceIte]
  omega

/-- C5: in every versus scoreboard two members with equal scores receive
the same rank, and every member's rank is one plus the number of members
with a strictly better score (the competition 1224 rule, so after a
two-way tie at rank 1 the next distinct score gets rank 3). -/
theorem c5_competition_ranking (db : DB) (v : VersusRow) :
    ∀ x ∈ player_rankings db v, ∀ y ∈ player_rankings db v,
      (x.2.1 = y.2.1 → x.2.2 = y.2.2)
      ∧ x.2.2 = 1 + (playerScores db v.id).countP
          (fun q => strictlyBetter v.reverse_ranking q.2 x.2.1) := by
  intro x hx y hy
  have hx' := player_rankings_rank_characterization db v x hx
  have hy' := player_rankings_rank_characterization db v y hy
  constructor
  · intro hs
    rw [hx', hy', hs]
  · rw [hx']
    omega

/-- C5 witness: in scenario 1 members 2 and 3 tie with score 0 behind the
score-15 leader and both get rank 2 = 1 + 1. -/
theorem c5_competition_ranking_witness :
    (((0 : Int) = 0 → (2 : Nat) = 2)
      ∧ (2 : Nat) = 1 + (playerScores dbScenario 1).countP
          (fun q => strictlyBetter false q.2 0)) :=
  c5_competition_ranking dbScenario ⟨1, "V", none, false, 1⟩
    (2, 0, 2) (by decide) (3, 0, 2) (by decide)

/-- C6: rank is monotone in score, with the direction controlled by
reverse_ranking: with reverse_ranking false a strictly higher score gives
a strictly smaller rank number, with reverse_ranking true a strictly
lower score gives a strictly smaller rank number. -/
theorem c6_rank_monotonicity (db : DB) (v : VersusRow) :
    ∀ x ∈ player_rankings db v, ∀ y ∈ player_rankings db v,
      (v.reverse_ranking = false → y.2.1 < x.2.1 → x.2.2 < y.2.2)
      ∧ (v.reverse_ranking = true → x.2.1 < y.2.1 → x.2.2 < y.2.2) := by
  intro x hx y hy
  have hx' := player_rankings_rank_characterization db v x hx
  have hy' := player_rankings_rank_characterization db v y hy
  have hxs : (x.1, x.2.1) ∈ playerScores db v.id := ranking_entry_mem_scores db v x hx
  constructor
  · intro hrev hlt
    rw [hx', hy']
    have h := countP_lt_of_witness (l := playerScores db v.id)
        (p := fun q => strictlyBetter v.reverse_ranking q.2 x.2.1)
        (q := fun q => strictlyBetter v.reverse_ranking q.2 y.2.1)
        (a := (x.1, x.2.1)) hxs
        (strictlyBetter_irrefl _ _)
        (by simp [strictlyBetter, hrev, hlt])
        (by intro b hb
            simp [strictlyBetter, hrev] at hb ⊢
            omega)
    omega
  · intro hrev hlt
    rw [hx', hy']
    have h := countP_lt_of_witness (l := playerScores db v.id)
        (p := fun q => strictlyBetter v.reverse_ranking q.2 x.2.1)
        (q := fun q => strictlyBetter v.reverse_ranking q.2 y.2.1)
        (a := (x.1, x.2.1)) hxs
        (strictlyBetter_irrefl _ _)
        (by simp [strictlyBetter, hrev, hlt])
        (by intro b hb
            simp [strictlyBetter, hrev] at hb ⊢
            omega)
    omega

/-- C6 witness: in scenario 1 the score-15 leader ranks above a score-0
member, and in the reverse-ranking copy of the game a score-0 member
ranks above the score-15 one. -/
theorem c6_rank_monotonicity_witness :
    ((false = false → (0 : Int) < 15 → (1 : Nat) < 2)
      ∧ (false = true → (15 : Int) < 0 → (1 : Nat) < 2))
    ∧ ((true = false → (15 : Int) < 0 → (1 : Nat) < 3)
      ∧ (true = true → (0 : Int) < 15 → (1 : Nat) < 3)) :=
  ⟨c6_rank_monotonicity dbScenario ⟨1, "V", none, false, 1⟩
      (1, 15, 1) (by decide) (2, 0, 2) (by decide),
   c6_rank_monotonicity dbScenario ⟨2, "W", none, true, 1⟩
      (2, 0, 1) (by decide) (1, 15, 3) (by decide)⟩

theorem find?_map_id_preserved (l : List ObjectiveRow) (g : ObjectiveRow → ObjectiveRow)
    (hid : ∀ o, (g o).id = o.id) (x : Nat) :
    (l.map g).find? (fun o => o.id == x) = (l.find? (fun o => o.id == x)).map g := by
  induction l with
  | nil => rfl
  | cons a t ih =>
    by_cases h : a.id = x
    · rw [List.map_cons, List.find?_cons_of_pos _ (by simp [hid a, h]),
        List.find?_cons_of_pos _ (by simp [h])]
      rfl
    · rw [List.map_cons, List.find?_cons_of_neg _ (by simp [hid a, h]),
        List.find?_cons_of_neg _ (by simp [h]), ih]

theorem findObjective_update (db : DB) (oid : Nat) (newPts : Int) (obj : ObjectiveRow)
    (hfind : findObjective db oid = some obj) (x : Nat) :
    findObjective { db with objectives := db.objectives.map (fun o =>
        if o.id == oid then { o with points := newPts } else o) } x
      = if x = oid then some { obj with points := newPts } else findObjective db x := by
  rw [findObjective] at hfind
  simp only [findObjective]
  rw [find?_map_id_preserved _ _ (fun o => by by_cases h : o.id = oid <;> simp [h]) x]
  by_cases hx : x = oid
  · subst hx
    rw [hfind]
    have hobjid : obj.id = x := by simpa using List.find?_some hfind
    simp [hobjid]
  · rw [if_neg hx]
    cases hf : db.objectives.find? (fun o => o.id == x) with
    | none => simp
    | some o2 =>
      have ho2 : o2.id = x := by simpa using List.find?_some hf
      simp [ho2, hx]

theorem sum_contrib_update (db db2 : DB) (oid : Nat) (newPts : Int) (obj : ObjectiveRow)
    (hfind : findObjective db oid = some obj)
    (hlook : ∀ x, findObjective db2 x
      = if x = oid then some { obj with points := newPts } else findObjective db x) :
    ∀ cs : List CompletionRow,
      ((cs.map some).filterMap (rowPoints db2)).sum
        = ((cs.map some).filterMap (rowPoints db)).sum
          + (newPts - obj.points) * (cs.countP (fun c => c.objective_id == oid)) := by
  intro cs
  induction cs with
  | nil => simp
  | cons c t ih =>
    rw [List.map_cons, List.countP_cons]
    by_cases hc : c.objective_id = oid
    · have h2 : rowPoints db2 (some c) = some newPts := by simp [rowPoints, hlook, hc]
      have h1 : rowPoints db (some c) = some obj.points := by simp [rowPoints, hc, hfind]
      rw [List.filterMap_cons_some h2, List.filterMap_cons_some h1,
        List.sum_cons, List.sum_cons, ih]
      have hb : (c.objective_id == oid) = true := by simp [hc]
      rw [hb, if_pos rfl]
      push_cast
      ring
    · have h2 : rowPoints db2 (some c) = rowPoints db (some c) := by
        have e2 : rowPoints db2 (some c)
            = (findObjective db2 c.objective_id).map (fun o => o.points) := rfl
        have e1 : rowPoints db (some c)
            = (findObjective db c.objective_id).map (fun o => o.points) := rfl
        rw [e1, e2, hlook, if_neg hc]
      have hb : (c.objective_id == oid) = false := by simp [hc]
      rw [hb, if_neg (by simp)]
      cases hr : rowPoints db (some c) with
      | none =>
        rw [List.filterMap_cons_none (h2.trans hr), List.filterMap_cons_none hr]
        simpa using ih
      | some val =>
        rw [List.filterMap_cons_some (h2.trans hr), List.filterMap_cons_some hr,
          List.sum_cons, List.sum_cons, ih]
        push_cast
        ring

theorem total_score_update (db db2 : DB) (oid : Nat) (newPts : Int) (obj : ObjectiveRow)
    (hfind : findObjective db oid = some obj)
    (hlook : ∀ x, findObjective db2 x
      = if x = oid then some { obj with points := newPts } else findObjective db x)
    (hcomp : db2.completions = db.completions)
    (vp : VersusPlayerRow) :
    total_score db2 vp = total_score db vp
      + (newPts - obj.points) * ((completionsOf db vp.versus_id vp.player_id).countP
          (fun c => c.objective_id == oid)) := by
  unfold total_score joinRows
  have hcs : completionsOf db2 vp.versus_id vp.player_id
      = completionsOf db vp.versus_id vp.player_id := by
    simp [completionsOf, hcomp]
  rw [hcs]
  by_cases hempty : (completionsOf db vp.versus_id vp.player_id).isEmpty
  · have hnil : completionsOf db vp.versus_id vp.player_id = [] := by simpa using hempty
    rw [hnil]
    simp [rowPoints]
  · rw [if_neg hempty]
    exact sum_contrib_update db db2 oid newPts obj hfind hlook _

/-- C7: a successful points edit through updateObjective changes only the
one objectives row: the completions, versus_players, versus and players
tables are untouched, and on the next read every member's derived score
moves by (new points minus old points) times the number of that member's
completions of the edited objective, because score is recomputed from the
join on every read and never stored. -/
theorem c7_objective_edit_live (db : DB) (caller oid : Nat) (newPts : Int) (db' : DB)
    (hsucc : updateObjectivePoints db caller oid newPts = some db') :
    ∃ obj, findObjective db oid = some obj
      ∧ db'.completions = db.completions
      ∧ db'.versus_players = db.versus_players
      ∧ db'.versus = db.versus
      ∧ db'.players = db.players
      ∧ db'.objectives = db.objectives.map (fun o =>
          if o.id == oid then { o with points := newPts } else o)
      ∧ ∀ vp ∈ db.versus_players,
          total_score db' vp = total_score db vp
            + (newPts - obj.points) * ((completionsOf db vp.versus_id vp.player_id).countP
                (fun c => c.objective_id == oid)) := by
  unfold updateObjectivePoints at hsucc
  split at hsucc
  · simp at hsucc
  · rename_i obj hfind
    split at hsucc
    · simp at hsucc
    · have hdb' : db' = { db with objectives := db.objectives.map (fun o =>
          if o.id == oid then { o with points := newPts } else o) } :=
        (Option.some.inj hsucc).symm
      subst hdb'
      refine ⟨obj, hfind, rfl, rfl, rfl, rfl, rfl, ?_⟩
      intro vp _
      exact total_score_update db _ oid newPts obj hfind
        (findObjective_update db oid newPts obj hfind) rfl vp

/-- Concrete store for the objective-edit scenario: one member who has
completed the single 10-point objective twice. -/
def dbEdit : DB :=
  ⟨[⟨1, "a", none⟩], [⟨1, "V", none, false, 1⟩], [⟨1, 1, true, none⟩],
   [⟨1, 1, "o", 10, none⟩], [⟨1, 1, 1, 1⟩, ⟨2, 1, 1, 1⟩]⟩

/-- The store of dbEdit after the points edit from 10 to 15. -/
def dbEditUpdated : DB :=
  ⟨[⟨1, "a", none⟩], [⟨1, "V", none, false, 1⟩], [⟨1, 1, true, none⟩],
   [⟨1, 1, "o", 15, none⟩], [⟨1, 1, 1, 1⟩, ⟨2, 1, 1, 1⟩]⟩

/-- C7 witness: editing the objective from 10 to 15 points with two prior
completions leaves every other table unchanged and raises the member's
derived score by (15 - 10) times 2. -/
theorem c7_objective_edit_live_witness :
    ∃ obj, findObjective dbEdit 1 = some obj
      ∧ dbEditUpdated.completions = dbEdit.completions
      ∧ dbEditUpdated.versus_players = dbEdit.versus_players
      ∧ dbEditUpdated.versus = dbEdit.versus
      ∧ dbEditUpdated.players = dbEdit.players
      ∧ dbEditUpdated.objectives = dbEdit.objectives.map (fun o =>
          if o.id == 1 then { o with points := 15 } else o)
      ∧ ∀ vp ∈ dbEdit.versus_players,
          total_score dbEditUpdated vp = total_score dbEdit vp
            + (15 - obj.points) * ((completionsOf dbEdit vp.versus_id vp.player_id).countP
                (fun c => c.objective_id == 1)) :=
  c7_objective_edit_live dbEdit 1 1 15 dbEditUpdated (by decide)

/-- Concrete store for the last-commissioner scenarios: versus 5 with
commissioner 1 and ordinary member 2. -/
def dbGuard : DB :=
  ⟨[⟨1, "a", none⟩, ⟨2, "b", none⟩], [⟨5, "V", none, false, 1⟩],
   [⟨5, 1, true, none⟩, ⟨5, 2, false, none⟩], [], []⟩

/-- C8 counterexample: a desired list that keeps both members but demotes
the only commissioner is accepted by updateVersusPlayers (no rejection)
and leaves the versus with zero commissioners, refuting the claim that
every call whose desired list would leave no commissioner is rejected
with the membership set unchanged. -/
theorem c8_last_commissioner_counterexample :
    (updateVersusPlayers dbGuard 1 5 [⟨1, false, none⟩, ⟨2, false, none⟩]).1 = none
    ∧ ((updateVersusPlayers dbGuard 1 5
        [⟨1, false, none⟩, ⟨2, false, none⟩]).2.versus_players.countP
        (fun vp => vp.versus_id == 5 && vp.is_commissioner)) = 0 := by
  constructor <;> decide

theorem applyPlayerUpdates_preserves (versusId : Nat) (current : List VersusPlayerRow)
    (row : VersusPlayerRow) :
    ∀ (pd : List PlayerInput) (db : DB), (∀ q ∈ pd, q.player_id ≠ row.player_id) →
      row ∈ db.versus_players →
      row ∈ (applyPlayerUpdates versusId current db pd).2.versus_players := by
  intro pd
  induction pd with
  | nil => intro db _ hrow; exact hrow
  | cons pu rest ih =>
    intro db hne hrow
    rw [applyPlayerUpdates]
    have hne' : ∀ q ∈ rest, q.player_id ≠ row.player_id :=
      fun q hq => hne q (List.mem_cons_of_mem _ hq)
    by_cases hcur : current.any (fun p => p.player_id == pu.player_id)
    · rw [if_pos hcur]
      refine ih _ hne' ?_
      have hrow' : (fun vp => if vp.versus_id == versusId && vp.player_id == pu.player_id then
          { vp with nickname := pu.nickname, is_commissioner := pu.is_commissioner }
          else vp) row = row := by
        have : (row.player_id == pu.player_id) = false := by
          simp [(hne pu (List.mem_cons_self _ _)).symm]
        simp [this]
      exact hrow' ▸ List.mem_map_of_mem _ hrow
    · rw [if_neg hcur]
      by_cases hfail : ((db.players.find? (fun pl => pl.id == pu.player_id)).isNone
          || db.versus_players.any (fun vp =>
              vp.versus_id == versusId && vp.player_id == pu.player_id)) = true
      · rw [if_pos hfail]
        exact hrow
      · rw [if_neg hfail]
        exact ih _ hne' (List.mem_append_left _ hrow)

theorem applyPlayerUpdates_members_ok (versusId : Nat) (current : List VersusPlayerRow) :
    ∀ (pd : List PlayerInput) (db : DB),
      (∀ q ∈ pd, current.any (fun p => p.player_id == q.player_id) = true) →
      (applyPlayerUpdates versusId current db pd).1 = none := by
  intro pd
  induction pd with
  | nil => intro db _; rfl
  | cons pu rest ih =>
    intro db hmem
    rw [applyPlayerUpdates, if_pos (hmem pu (List.mem_cons_self _ _))]
    exact ih _ (fun q hq => hmem q (List.mem_cons_of_mem _ hq))

theorem removeLoop_guard (caller versusId : Nat) (pd : List PlayerInput)
    (hnocomm : (pd.filter (fun q => q.is_commissioner && !(q.player_id == caller))).isEmpty) :
    ∀ (rows : List VersusPlayerRow) (db : DB),
      (∃ r ∈ rows, r.player_id = caller ∧ r.is_commissioner = true) →
      (∀ r ∈ rows, r.player_id = caller → r.is_commissioner = true) →
      (∃ vp ∈ db.versus_players,
        vp.versus_id = versusId ∧ vp.player_id = caller ∧ vp.is_commissioner = true) →
      (removeLoop caller versusId pd db rows).1 = some "Cannot remove the last commissioner"
      ∧ ∃ vp ∈ (removeLoop caller versusId pd db rows).2.versus_players,
          vp.versus_id = versusId ∧ vp.player_id = caller ∧ vp.is_commissioner = true := by
  intro rows
  induction rows with
  | nil =>
    intro db hmem _ _
    obtain ⟨r, hr, _⟩ := hmem
    simp at hr
  | cons p rest ih =>
    intro db hmem hall hkeep
    by_cases hp : (p.player_id == caller && p.is_commissioner) = true
    · rw [removeLoop, if_pos hp, if_pos hnocomm]
      exact ⟨rfl, hkeep⟩
    · have hpn : p.player_id ≠ caller := by
        intro hpc
        have := hall p (List.mem_cons_self _ _) hpc
        simp [hpc, this] at hp
      rw [removeLoop, if_neg hp]
      refine ih (removePlayer versusId p.player_id db) ?_ ?_ ?_
      · obtain ⟨r, hr, hrc, hrcm⟩ := hmem
        rcases List.mem_cons.mp hr with h | h
        · exact absurd (by simp [h ▸ hrc, h ▸ hrcm] : (p.player_id == caller
            && p.is_commissioner) = true) hp
        · exact ⟨r, h, hrc, hrcm⟩
      · exact fun r hr => hall r (List.mem_cons_of_mem _ hr)
      · obtain ⟨vp, hvp, h1, h2, h3⟩ := hkeep
        refine ⟨vp, ?_, h1, h2, h3⟩
        simp only [removePlayer]
        refine List.mem_filter.mpr ⟨hvp, ?_⟩
        have hbeq : (vp.player_id == p.player_id) = false := by
          simp [h2]
          exact fun hh => hpn hh.symm
        simp [hbeq]

/-- C8 as amended: the last-commissioner guard of updateVersusPlayers
protects only against removing the caller: when the desired list omits
the caller (whose current membership row is a commissioner), consists of
existing members of the versus (so the update/insert phase performs only
updates and cannot hit a storage constraint), and marks no player
commissioner, the call returns the last-commissioner error and the
caller's commissioner row is never deleted; a desired list that merely
demotes every commissioner through the update path is accepted and
leaves the versus without any commissioner. -/
theorem c8_last_commissioner_amended (db : DB) (caller versusId : Nat) (pd : List PlayerInput)
    (hnd : (db.versus_players.map (fun vp => (vp.versus_id, vp.player_id))).Nodup)
    (hgate : ∃ row ∈ db.versus_players,
        row.versus_id = versusId ∧ row.player_id = caller ∧ row.is_commissioner = true)
    (hvex : ∃ v ∈ db.versus, v.id = versusId)
    (homit : ∀ q ∈ pd, q.player_id ≠ caller)
    (hnoc : ∀ q ∈ pd, q.is_commissioner = false)
    (hmempd : ∀ q ∈ pd,
      (membersOf db versusId).any (fun p => p.player_id == q.player_id) = true) :
    (updateVersusPlayers db caller versusId pd).1 = some "Cannot remove the last commissioner"
    ∧ ∃ vp ∈ (updateVersusPlayers db caller versusId pd).2.versus_players,
        vp.versus_id = versusId ∧ vp.player_id = caller ∧ vp.is_commissioner = true := by
  obtain ⟨row, hrowmem, hrv, hrp, hrc⟩ := hgate
  have hg1 : (db.versus_players.find? (fun vp =>
      vp.versus_id == versusId && vp.player_id == caller && vp.is_commissioner)).isNone = false := by
    have hs : (db.versus_players.find? (fun vp =>
        vp.versus_id == versusId && vp.player_id == caller && vp.is_commissioner)).isSome :=
      List.find?_isSome.mpr ⟨row, hrowmem, by simp [hrv, hrp, hrc]⟩
    cases hopt : db.versus_players.find? (fun vp =>
        vp.versus_id == versusId && vp.player_id == caller && vp.is_commissioner) with
    | none => rw [hopt] at hs; simp at hs
    | some _ => rfl
  have hg2 : (db.versus.find? (fun v => v.id == versusId)).isNone = false := by
    obtain ⟨v, hvmem, hvid⟩ := hvex
    have hs : (db.versus.find? (fun v => v.id == versusId)).isSome :=
      List.find?_isSome.mpr ⟨v, hvmem, by simp [hvid]⟩
    cases hopt : db.versus.find? (fun v => v.id == versusId) with
    | none => rw [hopt] at hs; simp at hs
    | some _ => rfl
  have happly : (applyPlayerUpdates versusId (membersOf db versusId) db pd).1 = none :=
    applyPlayerUpdates_members_ok versusId (membersOf db versusId) pd db hmempd
  have hunfold : updateVersusPlayers db caller versusId pd
      = removeLoop caller versusId pd
          (applyPlayerUpdates versusId (membersOf db versusId) db pd).2
          ((membersOf db versusId).filter
            (fun p => !(pd.any (fun q => q.player_id == p.player_id)))) := by
    simp [updateVersusPlayers, hg1, hg2, happly]
  have hnocomm : (pd.filter (fun q => q.is_commissioner && !(q.player_id == caller))).isEmpty := by
    have : pd.filter (fun q => q.is_commissioner && !(q.player_id == caller)) = [] :=
      List.filter_eq_nil_iff.mpr (fun q hq => by simp [hnoc q hq])
    simp [this]
  have hrowcur : row ∈ membersOf db versusId :=
    List.mem_filter.mpr ⟨hrowmem, by simp [hrv]⟩
  have hrowrem : row ∈ (membersOf db versusId).filter
      (fun p => !(pd.any (fun q => q.player_id == p.player_id))) := by
    refine List.mem_filter.mpr ⟨hrowcur, ?_⟩
    simp only [Bool.not_eq_eq_eq_not, Bool.not_true, List.any_eq_false]
    intro q hq
    simp [hrp, homit q hq]
  rw [hunfold]
  refine removeLoop_guard caller versusId pd hnocomm _ _ ⟨row, hrowrem, hrp, hrc⟩ ?_ ?_
  · intro r hrm hrcaller
    have hrcur : r ∈ membersOf db versusId := (List.mem_filter.mp hrm).1
    have hrdb : r ∈ db.versus_players := (List.mem_filter.mp hrcur).1
    have hrvid : r.versus_id = versusId := by
      simpa using (List.mem_filter.mp hrcur).2
    have : r = row := List.inj_on_of_nodup_map hnd hrdb hrowmem
      (by rw [hrvid, hrcaller, hrv, hrp])
    rw [this]
    exact hrc
  · exact ⟨row, applyPlayerUpdates_preserves versusId (membersOf db versusId) row pd db
      (fun q hq => hrp ▸ homit q hq) hrowmem, hrv, hrp, hrc⟩

/-- C8 witness: removing the sole commissioner (the caller) with the
other existing member as the desired list and no replacement
commissioner is rejected and the caller's commissioner row survives. -/
theorem c8_last_commissioner_amended_witness :
    (updateVersusPlayers dbGuard 1 5 [⟨2, false, none⟩]).1
      = some "Cannot remove the last commissioner"
    ∧ ∃ vp ∈ (updateVersusPlayers dbGuard 1 5 [⟨2, false, none⟩]).2.versus_players,
        vp.versus_id = 5 ∧ vp.player_id = 1 ∧ vp.is_commissioner = true :=
  c8_last_commissioner_amended dbGuard 1 5 [⟨2, false, none⟩]
    (by decide) (by decide) (by decide) (by decide) (by decide) (by decide)

theorem total_score_append_completion (db : DB) (c : CompletionRow) (vp : VersusPlayerRow)
    (hmv : c.versus_id = vp.versus_id) (hmp : c.player_id = vp.player_id)
    (obj : ObjectiveRow) (hobj : findObjective db c.objective_id = some obj) :
    total_score { db with completions := db.completions ++ [c] } vp
      = total_score db vp + obj.points := by
  have hcs2 : completionsOf { db with completions := db.completions ++ [c] }
      vp.versus_id vp.player_id
      = completionsOf db vp.versus_id vp.player_id ++ [c] := by
    simp [completionsOf, List.filter_append, hmv, hmp]
  have hrp : rowPoints { db with completions := db.completions ++ [c] } = rowPoints db := rfl
  unfold total_score joinRows
  rw [hcs2, hrp]
  by_cases hemp : (completionsOf db vp.versus_id vp.player_id).isEmpty
  · have hnil : completionsOf db vp.versus_id vp.player_id = [] := by simpa using hemp
    rw [hnil]
    simp [rowPoints, hobj]
  · have hemp2 : (completionsOf db vp.versus_id vp.player_id ++ [c]).isEmpty = false := by
      cases h : completionsOf db vp.versus_id vp.player_id <;> simp
    rw [if_neg (by simp [hemp2]), if_neg hemp, List.map_append, List.filterMap_append]
    simp [rowPoints, hobj]

/-- C10: completeObjective rejects a request exactly when the caller is
not a member of the given versus or the completion's player differs from
the caller (assuming the three foreign keys of the insert resolve); it
never checks that the objective belongs to that versus, so a successful
call appends the completion row as given, and when the referenced
objective lives in a different versus its points are still added to the
caller's derived score in the given versus. -/
theorem c10_no_cross_versus_check (db : DB) (caller versusId playerId objectiveId freshCid : Nat)
    (hv : ∃ v ∈ db.versus, v.id = versusId)
    (hp : ∃ p ∈ db.players, p.id = playerId)
    (ho : ∃ o ∈ db.objectives, o.id = objectiveId) :
    ((completeObjective db caller versusId playerId objectiveId freshCid).1 = none ↔
      ((∃ vp ∈ db.versus_players, vp.versus_id = versusId ∧ vp.player_id = caller)
        ∧ playerId = caller))
    ∧ ((completeObjective db caller versusId playerId objectiveId freshCid).1 = none →
        (completeObjective db caller versusId playerId objectiveId freshCid).2.completions
          = db.completions ++ [⟨freshCid, versusId, playerId, objectiveId⟩])
    ∧ ((completeObjective db caller versusId playerId objectiveId freshCid).1 = none →
        ∀ obj, findObjective db objectiveId = some obj →
        ∀ vp : VersusPlayerRow, vp.versus_id = versusId → vp.player_id = playerId →
          total_score (completeObjective db caller versusId playerId objectiveId freshCid).2 vp
            = total_score db vp + obj.points) := by
  by_cases h1 : (db.versus_players.find? (fun vp =>
      vp.versus_id == versusId && vp.player_id == caller)).isNone
  · have hout : completeObjective db caller versusId playerId objectiveId freshCid
        = (some "You do not have access to this versus", db) := by
      simp [completeObjective, h1]
    rw [hout]
    have hnomem : ¬ ∃ vp ∈ db.versus_players, vp.versus_id = versusId ∧ vp.player_id = caller := by
      intro ⟨vp, hvp, hvv, hvc⟩
      have hs : (db.versus_players.find? (fun vp =>
          vp.versus_id == versusId && vp.player_id == caller)).isSome :=
        List.find?_isSome.mpr ⟨vp, hvp, by simp [hvv, hvc]⟩
      rw [Option.isNone_iff_eq_none.mp h1] at hs
      simp at hs
    exact ⟨by simp [hnomem], by simp, by simp⟩
  · by_cases h2 : playerId = caller
    · have hfk : ((db.versus.find? (fun v => v.id == versusId)).isNone
          || (db.players.find? (fun p => p.id == playerId)).isNone
          || (db.objectives.find? (fun o => o.id == objectiveId)).isNone) = false := by
        obtain ⟨v, hvm, hvi⟩ := hv
        obtain ⟨p, hpm, hpi⟩ := hp
        obtain ⟨o, hom, hoi⟩ := ho
        have s1 : (db.versus.find? (fun v => v.id == versusId)).isSome :=
          List.find?_isSome.mpr ⟨v, hvm, by simp [hvi]⟩
        have s2 : (db.players.find? (fun p => p.id == playerId)).isSome :=
          List.find?_isSome.mpr ⟨p, hpm, by simp [hpi]⟩
        have s3 : (db.objectives.find? (fun o => o.id == objectiveId)).isSome :=
          List.find?_isSome.mpr ⟨o, hom, by simp [hoi]⟩
        simp [Option.isNone_eq_false_iff, s1, s2, s3]
      have hout : completeObjective db caller versusId playerId objectiveId freshCid
          = (none, { db with completions :=
              db.completions ++ [⟨freshCid, versusId, playerId, objectiveId⟩] }) := by
        simp [completeObjective, h1, h2, hfk]
        exact ⟨⟨hv, h2 ▸ hp⟩, ho⟩
      rw [hout]
      have hmem : ∃ vp ∈ db.versus_players, vp.versus_id = versusId ∧ vp.player_id = caller := by
        cases hopt : db.versus_players.find? (fun vp =>
            vp.versus_id == versusId && vp.player_id == caller) with
        | none => exact absurd (by simp [hopt]) h1
        | some vp =>
          have hm := List.mem_of_find?_eq_some hopt
          have hcond := List.find?_some hopt
          simp at hcond
          exact ⟨vp, hm, hcond⟩
      refine ⟨by simp [hmem, h2], by simp, ?_⟩
      intro _ obj hobj vp hvv hvp
      exact total_score_append_completion db _ vp (by simpa using hvv.symm)
        (by simpa using hvp.symm) obj hobj
    · have hout : completeObjective db caller versusId playerId objectiveId freshCid
          = (some "You can only complete objectives for yourself", db) := by
        simp [completeObjective, h1, h2]
      rw [hout]
      exact ⟨by simp [h2], by simp, by simp⟩

/-- Concrete store for the cross-versus completion scenario: the caller
is a member of versus 1 only, while objective 50 (worth 7 points) belongs
to versus 2. -/
def dbCross : DB :=
  ⟨[⟨1, "a", none⟩], [⟨1, "A", none, false, 1⟩, ⟨2, "B", none, false, 1⟩],
   [⟨1, 1, true, none⟩], [⟨50, 2, "foreign", 7, none⟩], []⟩

/-- C10 witness: recording a completion of versus 2's objective inside
versus 1 succeeds, the row is inserted, and the caller's versus-1 score
rises by the foreign objective's 7 points. -/
theorem c10_no_cross_versus_check_witness :
    ((completeObjective dbCross 1 1 1 50 900).1 = none ↔
      ((∃ vp ∈ dbCross.versus_players, vp.versus_id = 1 ∧ vp.player_id = 1) ∧ (1 : Nat) = 1))
    ∧ ((completeObjective dbCross 1 1 1 50 900).1 = none →
        (completeObjective dbCross 1 1 1 50 900).2.completions
          = dbCross.completions ++ [⟨900, 1, 1, 50⟩])
    ∧ ((completeObjective dbCross 1 1 1 50 900).1 = none →
        ∀ obj, findObjective dbCross 50 = some obj →
        ∀ vp : VersusPlayerRow, vp.versus_id = 1 → vp.player_id = 1 →
          total_score (completeObjective dbCross 1 1 1 50 900).2 vp
            = total_score dbCross vp + obj.points) :=
  c10_no_cross_versus_check dbCross 1 1 1 50 900 (by decide) (by decide) (by decide)

end WhoVersus
